import Mathlib

/-!
Shallow embedding of the auto-mihomo core:
- the latency prober and ranker (scripts/test_nodes.py), and
- the update orchestrator state machine (scripts/mcp_server.py).

Pure data is translated directly; the network and the external pipeline are
modelled as explicit oracles passed to the functions that consult them.
-/

namespace AutoMihomo

/-- A proxy entry as consumed by test_tcp_latency: the `name`, `server` and
`port` fields.  `port` has already been through Python's int(), so it may be
zero (the default for a missing field) or negative. -/
structure Proxy where
  name : String
  server : String
  port : Int
deriving DecidableEq, Repr

/-- Behaviour of one sock.connect((server, port)) call that is actually
attempted with a port accepted by the socket layer: either the connection
succeeds after durationMs milliseconds (as measured by the monotonic clock),
or it raises one of the exception classes caught at test_nodes.py line 47
(socket.timeout, ConnectionRefusedError, OSError — timeouts, refusals, DNS
failures and other socket errors). -/
inductive ConnectOutcome where
  | ok (durationMs : Nat)
  | err
deriving DecidableEq, Repr

/-- The tuple returned by test_tcp_latency: (name, server:port, latency in
milliseconds, success flag 1/0). -/
structure ProbeReturn where
  name : String
  addr : String
  latencyMs : Nat
  ok : Bool
deriving DecidableEq, Repr

/-- The f-string "\x7bserver\x7d:\x7bport\x7d". -/
def addrString (p : Proxy) : String :=
  p.server ++ ":" ++ toString p.port

/-- test_nodes.py, test_tcp_latency.  `net` is the network oracle giving the
outcome of each connect call that is attempted.  A `none` result models an
uncaught exception escaping the function: for a port outside 0..65535,
sock.connect raises OverflowError before touching the network, and
OverflowError is not among the classes caught at line 47, so it propagates
out of the worker (and out of future.result() in main). -/
def test_tcp_latency (net : String → Int → ConnectOutcome) (p : Proxy) :
    Option ProbeReturn :=
  if p.server = "" ∨ p.port = 0 then
    some ⟨p.name, addrString p, 9999, false⟩
  else if p.port < 0 ∨ 65535 < p.port then
    none
  else
    match net p.server p.port with
    | .ok d => some ⟨p.name, addrString p, d, true⟩
    | .err => some ⟨p.name, addrString p, 9999, false⟩

/-- Whether control reaches the sock.connect call in test_tcp_latency, i.e.
the guard `if not server or not port` at line 36 did not fire.  Python
falsiness: the empty string and the integer 0 are falsy; every other int,
including negative ones, is truthy. -/
def connectAttempted (p : Proxy) : Bool :=
  decide (¬ (p.server = "" ∨ p.port = 0))

/-- The comparison underlying results.sort(key=lambda x: x[2]): order probe
results by their latency field. -/
def latLE (a b : ProbeReturn) : Prop :=
  a.latencyMs ≤ b.latencyMs

instance : DecidableRel latLE :=
  fun a b => inferInstanceAs (Decidable (a.latencyMs ≤ b.latencyMs))

instance : IsTotal ProbeReturn latLE :=
  ⟨fun a b => Nat.le_total a.latencyMs b.latencyMs⟩

instance : IsTrans ProbeReturn latLE :=
  ⟨fun _ _ _ h h2 => Nat.le_trans h h2⟩

/-- results.sort(key=lambda x: x[2]) at test_nodes.py line 87.  Python's
list.sort is a stable sort by the key; insertion sort with latLE is the
stable sort by latency, hence extensionally the same function. -/
def rankResults (rs : List ProbeReturn) : List ProbeReturn :=
  rs.insertionSort latLE

/-- The concurrent probing round of main (lines 77-84): one future per proxy,
results gathered in completion order with as_completed.  A list rs of probe
tuples is a possible outcome of the round when the collected list — some
permutation of the per-proxy outcomes — consists of successful returns only
(if any future raised, future.result() re-raises and main crashes instead of
producing a result list). -/
def RoundProduces (net : String → Int → ConnectOutcome)
    (proxies : List Proxy) (rs : List ProbeReturn) : Prop :=
  (rs.map some).Perm (proxies.map (test_tcp_latency net))

instance (net : String → Int → ConnectOutcome) (proxies : List Proxy)
    (rs : List ProbeReturn) : Decidable (RoundProduces net proxies rs) :=
  List.decidablePerm _ _

/-- The selection made by main (lines 101-110): the head of the sorted list
if its success flag is set, otherwise nothing (main prints an error and
exits 1). -/
def selectBest (rs : List ProbeReturn) : Option ProbeReturn :=
  match rankResults rs with
  | [] => none
  | r :: _ => if r.ok then some r else none

/-- Whether main's round fails with "所有节点均不可达" (all nodes
unreachable), i.e. sys.exit(1) at line 105: the head of the sorted result
list has success flag 0. -/
def roundFails (rs : List ProbeReturn) : Bool :=
  match rankResults rs with
  | [] => true
  | r :: _ => !r.ok

/-- The RankedList ordering invariant claimed by the spec: every reachable
result precedes every unreachable one, and within each of the two partitions
the latencies are non-decreasing. -/
def rankedInvariant (rs : List ProbeReturn) : Prop :=
  rs.Pairwise (fun a b => a.ok = false → b.ok = false)
  ∧ (rs.filter fun r => r.ok).Pairwise latLE
  ∧ (rs.filter fun r => !r.ok).Pairwise latLE

instance (rs : List ProbeReturn) : Decidable (rankedInvariant rs) :=
  inferInstanceAs (Decidable (_ ∧ _ ∧ _))

/-- Python s[-n:] on a decoded text (modelled as a list of characters), for
n > 0: the last n characters, or all of s when s is shorter than n. -/
def pyTail (n : Nat) (s : List Char) : List Char :=
  s.drop (s.length - n)

/-- The dict stored in _state["last_update_result"].  The three writers at
mcp_server.py lines 105, 112 and 117 populate different key sets, so every
key that is absent in some writer is optional here. -/
structure UpdateResultRec where
  success : Bool
  returncode : Option Int
  stdout : Option (List Char)
  stderr : Option (List Char)
  error : Option String
deriving DecidableEq, Repr

/-- The module-level _state dict of mcp_server.py (lines 50-55).
last_update_time is an opaque timestamp (datetime.now().isoformat()). -/
structure MCPState where
  update_running : Bool
  last_update_time : Option Nat
  last_update_result : Option UpdateResultRec
  update_count : Nat
deriving DecidableEq, Repr

/-- How one execution of the update_sub.sh pipeline turns out, as seen by
_run_update's try block:
- completed: proc.communicate() returned within the 180 s wait_for window,
  with the given exit code and decoded stdout/stderr;
- timeout: asyncio.wait_for raised asyncio.TimeoutError after 180 s;
- execError: any other exception (e.g. the pipeline script missing). -/
inductive PipelineOutcome where
  | completed (returncode : Int) (stdout stderr : List Char)
  | timeout
  | execError (msg : String)
deriving DecidableEq, Repr

/-- What happens to the child process around _run_update, fixed by asyncio
semantics and by the code itself:
- killCalled: whether _run_update ever invokes proc.kill() or
  proc.terminate() — the function contains no such call on any path;
- processRunningAfter: whether the child is still alive when _run_update
  returns.  After a completed communicate() the child has exited; on
  asyncio.TimeoutError, wait_for only cancels the communicate() task and
  the child keeps running; on execError either no child was spawned or
  communicate() finished. -/
structure RunEffects where
  killCalled : Bool
  processRunningAfter : Bool
deriving DecidableEq, Repr

/-- The value _run_update assigns to _state["last_update_result"], one of
the three writers at lines 105, 112 and 117. -/
def resultOf (o : PipelineOutcome) : UpdateResultRec :=
  match o with
  | .completed rc out err =>
      ⟨rc == 0, some rc, some (pyTail 3000 out), some (pyTail 3000 err), none⟩
  | .timeout => ⟨false, none, none, none, some "更新超时 (180s)"⟩
  | .execError msg => ⟨false, none, none, none, some msg⟩

/-- mcp_server.py, _run_update (lines 92-124): try/except/finally over one
pipeline execution.  The try or except arm stores resultOf o, then the
finally block runs unconditionally: update_running := false,
last_update_time := now, update_count += 1. -/
def run_update (st : MCPState) (o : PipelineOutcome) (now : Nat) :
    MCPState × RunEffects :=
  let st1 : MCPState :=
    { st with last_update_result := some (resultOf o) }
  let st2 : MCPState :=
    { st1 with
      update_running := false
      last_update_time := some now
      update_count := st1.update_count + 1 }
  let eff : RunEffects :=
    match o with
    | .completed _ _ _ => ⟨false, false⟩
    | .timeout => ⟨false, true⟩
    | .execError _ => ⟨false, false⟩
  (st2, eff)

/-- The status field of the UpdateResponse returned by POST /mcp/update. -/
inductive TriggerStatus where
  | busy
  | accepted
deriving DecidableEq, Repr

/-- mcp_server.py, trigger_update (lines 130-152).  Returns the response
status, the state after the handler, and whether asyncio.create_task spawned
a new _run_update task (a new pipeline process). -/
def trigger_update (st : MCPState) : TriggerStatus × MCPState × Bool :=
  if st.update_running then
    (.busy, st, false)
  else
    (.accepted, { st with update_running := true }, true)

/-! Helper lemmas shared by the claim proofs. -/

/-- Every tuple test_tcp_latency returns with success flag 0 carries the
sentinel latency 9999: both unreachable return sites (lines 37 and 48) use
the literal 9999. -/
theorem latency_of_unreachable (net : String → Int → ConnectOutcome)
    (p : Proxy) (r : ProbeReturn) (h : test_tcp_latency net p = some r)
    (hok : r.ok = false) : r.latencyMs = 9999 := by
  unfold test_tcp_latency at h
  split at h
  · injection h with h
    subst h
    rfl
  · split at h
    · exact absurd h (by simp)
    · split at h
      · injection h with h
        subst h
        simp at hok
      · injection h with h
        subst h
        rfl

/-- A result in a round's collected list comes from probing one of the
input proxies. -/
theorem roundProduces_mem {net : String → Int → ConnectOutcome}
    {proxies : List Proxy} {rs : List ProbeReturn}
    (h : RoundProduces net proxies rs) {r : ProbeReturn} (hr : r ∈ rs) :
    ∃ p ∈ proxies, test_tcp_latency net p = some r := by
  have hmem : some r ∈ proxies.map (test_tcp_latency net) :=
    h.mem_iff.mp (List.mem_map_of_mem some hr)
  obtain ⟨p, hp, he⟩ := List.mem_map.mp hmem
  exact ⟨p, hp, he⟩

/-- Every unreachable result in a round's collected list has latency 9999. -/
theorem unreachable_mem_latency {net : String → Int → ConnectOutcome}
    {proxies : List Proxy} {rs : List ProbeReturn}
    (h : RoundProduces net proxies rs) {r : ProbeReturn} (hr : r ∈ rs)
    (hok : r.ok = false) : r.latencyMs = 9999 := by
  obtain ⟨p, _, he⟩ := roundProduces_mem h hr
  exact latency_of_unreachable net p r he hok

/-- Two collected lists of the same round are permutations of each other. -/
theorem roundProduces_perm {net : String → Int → ConnectOutcome}
    {proxies : List Proxy} {rs1 rs2 : List ProbeReturn}
    (h1 : RoundProduces net proxies rs1) (h2 : RoundProduces net proxies rs2) :
    rs1.Perm rs2 := by
  have h := h1.trans h2.symm
  simpa using h.filterMap id

/-- The ranker's output is sorted by latency. -/
theorem sorted_rank (rs : List ProbeReturn) :
    (rankResults rs).Sorted latLE :=
  List.sorted_insertionSort latLE rs

/-- The ranker's output is a permutation of its input. -/
theorem perm_rank (rs : List ProbeReturn) : (rankResults rs).Perm rs :=
  List.perm_insertionSort latLE rs

/-- Strict latency comparison, used to pin down the sort result when all
latencies are distinct. -/
def latLT (a b : ProbeReturn) : Prop :=
  a.latencyMs < b.latencyMs

instance : IsAntisymm ProbeReturn latLT :=
  ⟨fun _ _ h h2 => absurd (Nat.lt_trans h h2) (Nat.lt_irrefl _)⟩

/-- When the latencies in rs are pairwise distinct, the ranker's output is
strictly sorted by latency. -/
theorem sorted_rank_strict (rs : List ProbeReturn)
    (hnd : (rs.map ProbeReturn.latencyMs).Nodup) :
    (rankResults rs).Sorted latLT := by
  have hnd2 : ((rankResults rs).map ProbeReturn.latencyMs).Nodup :=
    ((perm_rank rs).map ProbeReturn.latencyMs).symm.nodup hnd
  have hne : (rankResults rs).Pairwise fun a b => a.latencyMs ≠ b.latencyMs :=
    List.pairwise_map.mp hnd2
  exact List.Pairwise.imp (fun h => Nat.lt_of_le_of_ne h.1 h.2)
    ((sorted_rank rs).and hne)

/-! Concrete rounds used as counterexamples and witnesses. -/

/-- Network where host "a" accepts the connection after 10000 ms and every
other host fails; realisable e.g. with --timeout 15. -/
def netSlow : String → Int → ConnectOutcome :=
  fun h _ => if h = "a" then .ok 10000 else .err

def proxiesSlow : List Proxy :=
  [⟨"n1", "a", 80⟩, ⟨"n2", "b", 80⟩]

/-- One completion order of probing proxiesSlow over netSlow: a reachable
result at 10000 ms and an unreachable one at the 9999 sentinel. -/
def rsSlow : List ProbeReturn :=
  [⟨"n1", "a:80", 10000, true⟩, ⟨"n2", "b:80", 9999, false⟩]

/-- Network where every connection succeeds after 100 ms. -/
def netTie : String → Int → ConnectOutcome :=
  fun _ _ => .ok 100

def proxiesTie : List Proxy :=
  [⟨"a", "h1", 80⟩, ⟨"b", "h2", 80⟩]

/-- Probing proxiesTie over netTie, completion order h1 then h2. -/
def rsTie1 : List ProbeReturn :=
  [⟨"a", "h1:80", 100, true⟩, ⟨"b", "h2:80", 100, true⟩]

/-- Probing proxiesTie over netTie, completion order h2 then h1. -/
def rsTie2 : List ProbeReturn :=
  [⟨"b", "h2:80", 100, true⟩, ⟨"a", "h1:80", 100, true⟩]

/-- Network where every connection attempt fails. -/
def netFail : String → Int → ConnectOutcome :=
  fun _ _ => .err

/-- A proxy entry with a negative port, e.g. `port: -1` in the YAML. -/
def pNeg : Proxy := ⟨"n", "h", -1⟩

/-- A proxy entry with an empty server field. -/
def pEmpty : Proxy := ⟨"n", "", 80⟩

/-- The tuple test_tcp_latency returns for a failed probe of host "h"
port 80. -/
def rFail : ProbeReturn := ⟨"n", "h:80", 9999, false⟩

/-- Network where host "a" accepts after exactly 9999 ms and every other
host fails. -/
def netNine : String → Int → ConnectOutcome :=
  fun h _ => if h = "a" then .ok 9999 else .err

def proxiesNine : List Proxy :=
  [⟨"x", "a", 80⟩, ⟨"y", "b", 80⟩]

/-- One completion order of probing proxiesNine over netNine: a reachable
result whose measured latency equals the 9999 sentinel, before an
unreachable one. -/
def rsNine : List ProbeReturn :=
  [⟨"x", "a:80", 9999, true⟩, ⟨"y", "b:80", 9999, false⟩]

/-- Network with two distinct fast latencies. -/
def netFast : String → Int → ConnectOutcome :=
  fun h _ => if h = "h1" then .ok 10 else .ok 20

/-- Probing proxiesTie over netFast, completion order h1 then h2. -/
def rsFast1 : List ProbeReturn :=
  [⟨"a", "h1:80", 10, true⟩, ⟨"b", "h2:80", 20, true⟩]

/-- Probing proxiesTie over netFast, completion order h2 then h1. -/
def rsFast2 : List ProbeReturn :=
  [⟨"b", "h2:80", 20, true⟩, ⟨"a", "h1:80", 10, true⟩]

/-- An orchestrator state with an update in progress. -/
def stBusy : MCPState := ⟨true, none, none, 0⟩

/-! Claim theorems. -/

/-- Claim C1, refuted as stated: the round over netSlow can produce rsSlow
(a reachable result at 10000 ms and an unreachable one at 9999 ms), and the
ranked list then places the unreachable result first, so reachable results
do not all precede unreachable ones. -/
theorem C1_counterexample :
    RoundProduces netSlow proxiesSlow rsSlow
    ∧ ¬ rankedInvariant (rankResults rsSlow) := by
  constructor
  · decide
  · decide

/-- Claim C1 as amended: for every list of probe results produced by one
probing round in which every reachable result's latency is strictly below
the 9999 sentinel, the ranked list has all reachable results before all
unreachable results, and within each of the two partitions the latencies
are non-decreasing. -/
theorem C1_ranked_invariant_amended (net : String → Int → ConnectOutcome)
    (proxies : List Proxy) (rs : List ProbeReturn)
    (hrs : RoundProduces net proxies rs)
    (hlat : ∀ r ∈ rs, r.ok = true → r.latencyMs < 9999) :
    rankedInvariant (rankResults rs) := by
  have hsort := sorted_rank rs
  have hperm := perm_rank rs
  refine ⟨?_, hsort.sublist (List.filter_sublist _),
    hsort.sublist (List.filter_sublist _)⟩
  refine hsort.imp_of_mem ?_
  intro a b ha hb hab hao
  by_contra hbo
  have hb1 : b.ok = true := by
    revert hbo
    cases b.ok <;> simp
  have ha9 : a.latencyMs = 9999 :=
    unreachable_mem_latency hrs (hperm.mem_iff.mp ha) hao
  have hblt : b.latencyMs < 9999 := hlat b (hperm.mem_iff.mp hb) hb1
  have : a.latencyMs ≤ b.latencyMs := hab
  omega

/-- Claim C1 witness: a round over netFast with latencies 10 and 20 ms
satisfies the amended invariant. -/
theorem C1_witness :
    RoundProduces netFast proxiesTie rsFast1
    ∧ rankedInvariant (rankResults rsFast1) :=
  ⟨by decide,
    C1_ranked_invariant_amended netFast proxiesTie rsFast1
      (by decide) (by decide)⟩

/-- Claim C2, refuted as stated: the round over netTie can collect its two
100 ms results in either completion order, and the ranker maps the two
orders to different outputs, so the output is not independent of the
completion order of the concurrent probes. -/
theorem C2_counterexample :
    RoundProduces netTie proxiesTie rsTie1
    ∧ RoundProduces netTie proxiesTie rsTie2
    ∧ rankResults rsTie1 ≠ rankResults rsTie2 := by
  refine ⟨by decide, by decide, by decide⟩

/-- Claim C2 as amended: the ranker sorts by latency ascending with the
completion order (not the original target index) as the stable tie-break;
whenever the latencies of a round's result set are pairwise distinct, any
two completion orders of that same result set are ranked to the identical
output. -/
theorem C2_rank_deterministic_amended (net : String → Int → ConnectOutcome)
    (proxies : List Proxy) (rs1 rs2 : List ProbeReturn)
    (h1 : RoundProduces net proxies rs1) (h2 : RoundProduces net proxies rs2)
    (hnd : (rs1.map ProbeReturn.latencyMs).Nodup) :
    rankResults rs1 = rankResults rs2 := by
  have hp : rs1.Perm rs2 := roundProduces_perm h1 h2
  have hnd2 : (rs2.map ProbeReturn.latencyMs).Nodup :=
    (hp.map ProbeReturn.latencyMs).nodup hnd
  exact List.eq_of_perm_of_sorted
    ((perm_rank rs1).trans (hp.trans (perm_rank rs2).symm))
    (sorted_rank_strict rs1 hnd) (sorted_rank_strict rs2 hnd2)

/-- Claim C2 witness: the two completion orders of the netFast round (10 ms
and 20 ms, distinct) are ranked identically. -/
theorem C2_witness :
    RoundProduces netFast proxiesTie rsFast1
    ∧ RoundProduces netFast proxiesTie rsFast2
    ∧ rankResults rsFast1 = rankResults rsFast2 :=
  ⟨by decide, by decide,
    C2_rank_deterministic_amended netFast proxiesTie rsFast1 rsFast2
      (by decide) (by decide) (by decide)⟩

/-- Claim C3, refuted as stated: in the rsSlow round a reachable result
exists, yet the selection is empty and the round fails as all-unreachable,
because the head of the ranked list is the unreachable 9999 result. -/
theorem C3_counterexample :
    RoundProduces netSlow proxiesSlow rsSlow
    ∧ rsSlow ≠ []
    ∧ (∃ r ∈ rsSlow, r.ok = true)
    ∧ selectBest rsSlow ≠ (rankResults rsSlow).head?
    ∧ roundFails rsSlow = true := by
  refine ⟨by decide, by decide, ⟨⟨"n1", "a:80", 10000, true⟩, by decide, rfl⟩,
    by decide, by decide⟩

/-- Claim C3 as amended: for every non-empty result set from a probing
round, the selection is the head of the ranked list when that head is
reachable and empty otherwise; if some result is reachable with latency
strictly below the 9999 sentinel, the selection equals the head of the
ranked list (which is reachable) and the round does not fail; if no result
is reachable, the selection is empty and the round fails with
NoReachableTargets; and whenever the round fails, every reachable result
(if any) has latency at least 9999. -/
theorem C3_selection_amended (net : String → Int → ConnectOutcome)
    (proxies : List Proxy) (rs : List ProbeReturn)
    (hrs : RoundProduces net proxies rs) (hne : rs ≠ []) :
    ((∃ r ∈ rs, r.ok = true ∧ r.latencyMs < 9999) →
      ∃ b, selectBest rs = some b ∧ (rankResults rs).head? = some b
        ∧ b.ok = true ∧ roundFails rs = false)
    ∧ ((∀ r ∈ rs, r.ok = false) →
        selectBest rs = none ∧ roundFails rs = true)
    ∧ (roundFails rs = true → ∀ r ∈ rs, r.ok = true → 9999 ≤ r.latencyMs) := by
  obtain ⟨hd, tl, heq⟩ : ∃ hd tl, rankResults rs = hd :: tl := by
    cases hr : rankResults rs with
    | nil =>
      have hperm := perm_rank rs
      rw [hr] at hperm
      exact absurd hperm.symm.eq_nil hne
    | cons a l => exact ⟨a, l, rfl⟩
  have hdmem : hd ∈ rs :=
    (perm_rank rs).mem_iff.mp (heq ▸ List.mem_cons_self hd tl)
  have hmin : ∀ r ∈ rs, hd.latencyMs ≤ r.latencyMs := by
    intro r hr
    have hr2 : r ∈ hd :: tl := heq ▸ (perm_rank rs).mem_iff.mpr hr
    rcases List.mem_cons.mp hr2 with h | h
    · exact h ▸ Nat.le_refl _
    · exact List.rel_of_sorted_cons (heq ▸ sorted_rank rs) r h
  refine ⟨?_, ?_, ?_⟩
  · rintro ⟨r, hr, hok, hlt⟩
    have hdo : hd.ok = true := by
      by_contra hdo
      have hdo2 : hd.ok = false := by
        revert hdo
        cases hd.ok <;> simp
      have h9 : hd.latencyMs = 9999 := unreachable_mem_latency hrs hdmem hdo2
      have := hmin r hr
      omega
    refine ⟨hd, ?_, ?_, hdo, ?_⟩
    · simp [selectBest, heq, hdo]
    · simp [heq]
    · simp [roundFails, heq, hdo]
  · intro hall
    have hdo : hd.ok = false := hall hd hdmem
    constructor
    · simp [selectBest, heq, hdo]
    · simp [roundFails, heq, hdo]
  · intro hfail r hr hok
    have hdo : hd.ok = false := by
      simp [roundFails, heq] at hfail
      exact hfail
    have h9 : hd.latencyMs = 9999 := unreachable_mem_latency hrs hdmem hdo
    have := hmin r hr
    omega

/-- Claim C3 witness: in the netFast round the selection is the reachable
head of the ranked list and the round does not fail. -/
theorem C3_witness :
    roundFails rsFast1 = false ∧ selectBest rsFast1 ≠ none := by
  obtain ⟨b, hsel, hhead, hok, hfail⟩ :=
    (C3_selection_amended netFast proxiesTie rsFast1 (by decide) (by decide)).1
      ⟨⟨"a", "h1:80", 10, true⟩, by decide, rfl, by decide⟩
  exact ⟨hfail, by simp [hsel]⟩

/-- Claim C4, refuted as stated: the proxy pNeg has port -1 ≤ 0, but the
guard `if not server or not port` does not fire on a negative port (only 0
is falsy), so the connect call is attempted — and its OverflowError is not
caught, so no unreachable result is recorded at all. -/
theorem C4_counterexample :
    (pNeg.server = "" ∨ pNeg.port ≤ 0)
    ∧ connectAttempted pNeg = true
    ∧ test_tcp_latency netFail pNeg = none := by
  refine ⟨Or.inr (by decide), by decide, by decide⟩

/-- Claim C4 as amended: for every probe target whose host is the empty
string or whose port equals 0, the prober records the target as unreachable
immediately (sentinel latency 9999, success flag 0), without attempting any
TCP connection. -/
theorem C4_invalid_target_amended (net : String → Int → ConnectOutcome)
    (p : Proxy) (h : p.server = "" ∨ p.port = 0) :
    test_tcp_latency net p = some ⟨p.name, addrString p, 9999, false⟩
    ∧ connectAttempted p = false := by
  constructor
  · unfold test_tcp_latency
    rw [if_pos h]
  · unfold connectAttempted
    simp only [decide_eq_false_iff_not]
    exact not_not_intro h

/-- Claim C4 witness: the empty-host proxy pEmpty is recorded unreachable
with no connection attempt. -/
theorem C4_witness :
    (pEmpty.server = "" ∨ pEmpty.port = 0)
    ∧ test_tcp_latency netFail pEmpty = some ⟨"n", ":80", 9999, false⟩
    ∧ connectAttempted pEmpty = false := by
  have h := C4_invalid_target_amended netFail pEmpty (Or.inl rfl)
  exact ⟨Or.inl rfl, h.1, h.2⟩

/-- Claim C5, code behaviour at the failing input (a pipeline run exceeding
the 180 s deadline): _run_update records the timeout failure in lastResult
(success false and an error text, with no exit code — distinct from a
non-zero-exit record) and clears update_running, but it contains no
proc.kill or proc.terminate call, and asyncio.wait_for only cancels the
communicate() task, so the pipeline process is left running. -/
theorem C5_timeout_recorded_not_killed (st : MCPState) (now : Nat) :
    (run_update st .timeout now).1.last_update_result
      = some ⟨false, none, none, none, some "更新超时 (180s)"⟩
    ∧ (resultOf .timeout).returncode = none
    ∧ (run_update st .timeout now).2.killCalled = false
    ∧ (run_update st .timeout now).2.processRunningAfter = true :=
  ⟨rfl, rfl, rfl, rfl⟩

/-- Claim C6: a TriggerUpdate call that arrives while update_running is
true returns the busy status, leaves the whole state unchanged, and spawns
no new pipeline task. -/
theorem C6_busy_no_change (st : MCPState) (h : st.update_running = true) :
    trigger_update st = (.busy, st, false) := by
  simp [trigger_update, h]

/-- Claim C6 witness: triggering on the concrete busy state stBusy. -/
theorem C6_witness :
    stBusy.update_running = true
    ∧ trigger_update stBusy = (.busy, stBusy, false) :=
  ⟨rfl, C6_busy_no_change stBusy rfl⟩

/-- Claim C7: for every pipeline run, whichever of the three outcomes
occurs, the completion bookkeeping executes exactly once: update_running is
cleared, last_update_time is set to the completion time, update_count grows
by exactly one, and the outcome is stored in last_update_result. -/
theorem C7_completion_bookkeeping (st : MCPState) (o : PipelineOutcome)
    (now : Nat) :
    (run_update st o now).1.update_running = false
    ∧ (run_update st o now).1.last_update_time = some now
    ∧ (run_update st o now).1.update_count = st.update_count + 1
    ∧ (run_update st o now).1.last_update_result = some (resultOf o) :=
  ⟨rfl, rfl, rfl, rfl⟩

/-- Claim C8: for every normally completed run, the stored stdout and
stderr tails are the last-3000-character suffixes of the full decoded
streams: each is at most 3000 characters long and is a suffix of the
corresponding stream. -/
theorem C8_tail_truncation (st : MCPState) (rc : Int) (out err : List Char)
    (now : Nat) :
    (run_update st (.completed rc out err) now).1.last_update_result
      = some ⟨rc == 0, some rc, some (pyTail 3000 out),
          some (pyTail 3000 err), none⟩
    ∧ (pyTail 3000 out).length ≤ 3000
    ∧ (pyTail 3000 err).length ≤ 3000
    ∧ pyTail 3000 out <:+ out
    ∧ pyTail 3000 err <:+ err := by
  refine ⟨rfl, ?_, ?_, List.drop_suffix _ _, List.drop_suffix _ _⟩ <;>
    · simp only [pyTail, List.length_drop]
      omega

/-- Claim C9, refuted as stated: the round over netNine produces a
reachable result whose measured latency is exactly the 9999 sentinel,
collected before the unreachable result, and the stable sort keeps it
ordered before the unreachable result. -/
theorem C9_counterexample :
    RoundProduces netNine proxiesNine rsNine
    ∧ ¬ (rankResults rsNine).Pairwise
        (fun a b => a.ok = true → 9999 ≤ a.latencyMs → b.ok = true) := by
  refine ⟨by decide, by decide⟩

/-- Claim C9 as amended: every probe whose connection attempt failed or was
rejected by the input guard carries the sentinel latency 9999, and a
reachable result whose measured latency is strictly greater than 9999 is
never ordered before an unreachable result by the ranker (at exactly 9999
it can tie and stay first). -/
theorem C9_sentinel_amended :
    (∀ (net : String → Int → ConnectOutcome) (p : Proxy) (r : ProbeReturn),
      test_tcp_latency net p = some r → r.ok = false → r.latencyMs = 9999)
    ∧ (∀ (net : String → Int → ConnectOutcome) (proxies : List Proxy)
        (rs : List ProbeReturn), RoundProduces net proxies rs →
        (rankResults rs).Pairwise
          fun a b => a.ok = true → 9999 < a.latencyMs → b.ok = true) := by
  refine ⟨latency_of_unreachable, ?_⟩
  intro net proxies rs hrs
  refine (sorted_rank rs).imp_of_mem ?_
  intro a b ha hb hab hao hgt
  by_contra hbo
  have hb0 : b.ok = false := by
    revert hbo
    cases b.ok <;> simp
  have h9 : b.latencyMs = 9999 :=
    unreachable_mem_latency hrs ((perm_rank rs).mem_iff.mp hb) hb0
  have : a.latencyMs ≤ b.latencyMs := hab
  omega

/-- Claim C9 witness: the concrete failed probe rFail carries latency 9999,
and the netFast round's ranked list satisfies the strict ordering
property. -/
theorem C9_witness :
    rFail.latencyMs = 9999
    ∧ (rankResults rsFast1).Pairwise
        (fun a b => a.ok = true → 9999 < a.latencyMs → b.ok = true) :=
  ⟨C9_sentinel_amended.1 netFail ⟨"n", "h", 80⟩ rFail (by decide) rfl,
    C9_sentinel_amended.2 netFast proxiesTie rsFast1 (by decide)⟩

/-- Claim C10: a run ending in the timeout or unexpected-error outcome
stores a lastResult holding only a false success flag and an error
description — no stdout tail, no stderr tail, no exit code — whereas a
normally completed run stores an exit code and both tails and no error
field. -/
theorem C10_failure_result_shape (st : MCPState) (now : Nat) (msg : String)
    (rc : Int) (out err : List Char) :
    (run_update st .timeout now).1.last_update_result
      = some ⟨false, none, none, none, some "更新超时 (180s)"⟩
    ∧ (run_update st (.execError msg) now).1.last_update_result
      = some ⟨false, none, none, none, some msg⟩
    ∧ (resultOf (.completed rc out err)).returncode.isSome = true
    ∧ (resultOf (.completed rc out err)).stdout.isSome = true
    ∧ (resultOf (.completed rc out err)).stderr.isSome = true
    ∧ (resultOf (.completed rc out err)).error = none :=
  ⟨rfl, rfl, rfl, rfl, rfl, rfl⟩

end AutoMihomo
